import Mathlib

/-!
Shallow embedding of `src/malloc.c` (MyMalloc): a first-fit heap allocator
over `sbrk`, with block headers threaded through memory as a singly linked
list, together with proofs and refutations of the specification claims.

Machine model: LP64, so `size_t` and pointers are 64-bit and
`sizeof(BlockHeader)` is 24 = 8 (`size_t size`) + 4 (`int free`) +
4 (struct padding) + 8 (`BlockHeader *next`).  Addresses are natural
numbers; the null pointer is `Option.none` at the interface and address
`0` where the source handles it as a raw address (as `memset`/`memcpy` do).
Header memory is a finite address-indexed store of `BlockHeader` records;
payload bytes live in a separate byte store `data`.  The `sbrk` primitive
is modelled by the monotone `brk` field plus the flag `sbrkOk` saying
whether break extension succeeds; `sbrk(0)` is the pure query `brk`.
-/

namespace MyMalloc

/-- `#define CHUNKSIZE 64 * 1024` -/
def CHUNKSIZE : Nat := 64 * 1024

/-- `#define BUSDIV 16` — the alignment constant `A`. -/
def BUSDIV : Nat := 16

/-- `sizeof(BlockHeader)` on LP64. -/
def HEADERSIZE : Nat := 24

/-- `struct BlockHeader { size_t size; int free; struct BlockHeader *next; }` -/
structure BlockHeader where
  size : Nat
  free : Bool
  next : Option Nat
deriving DecidableEq, Repr

/-- Result of the source loop `while (x % BUSDIV != 0) x++;`:
the least multiple of `BUSDIV` that is `>= x`. -/
def alignUp (x : Nat) : Nat := x + (BUSDIV - x % BUSDIV) % BUSDIV

/-- Result of the source loop `while (x % BUSDIV != 0) x--;`:
the greatest multiple of `BUSDIV` that is `<= x`. -/
def alignDown (x : Nat) : Nat := x - x % BUSDIV

/-- Address-indexed finite store (used for header records and data bytes). -/
def lookupA {α : Type} : List (Nat × α) → Nat → Option α
  | [], _ => none
  | (b, v) :: rest, a => if a = b then some v else lookupA rest a

/-- Write to an address-indexed store: replace the entry in place when the
address is present (all other entries untouched), append otherwise. -/
def storeA {α : Type} : List (Nat × α) → Nat → α → List (Nat × α)
  | [], a, v => [(a, v)]
  | (b, w) :: rest, a, v =>
    if a = b then (a, v) :: rest else (b, w) :: storeA rest a v

abbrev Mem := List (Nat × BlockHeader)
abbrev Data := List (Nat × Nat)

/-- The allocator's global state: the header store, the payload byte store,
`BlockBase`, `CurrentTopBreak`, `CurrentFreeSpace`, and the OS break. -/
structure AllocState where
  mem : Mem
  data : Data
  blockBase : Option Nat
  currentTopBreak : Nat
  currentFreeSpace : Nat
  brk : Nat
  sbrkOk : Bool
deriving DecidableEq, Repr

/-- Value of a C `int` expression when converted to 64-bit `size_t`
(two's complement). -/
def toSizeT (i : Int) : Nat := (i % (2 ^ 64 : Int)).toNat

/-- `memset(base, v, n)` on the byte store: writes `v` at `base + i` for
every `i < n` (`base = 0` is the null pointer). -/
def memsetBytes (d : Data) (base v n : Nat) : Data :=
  (List.range n).foldl (fun acc i => storeA acc (base + i) v) d

/-- `memcpy(dst, src, n)` on the byte store; bytes whose source is not
modelled stay unmodelled. -/
def memcpyBytes (d : Data) (dst src n : Nat) : Data :=
  (List.range n).foldl
    (fun acc i =>
      match lookupA d (src + i) with
      | some v => storeA acc (dst + i) v
      | none => acc) d

/-- The break-extension step at the top of `GetBlock` (the spec's Break
Manager `acquire_chunk`): extend the address space when the break was never
established or `nextBreak = sbrk(0) + blockSize` exceeds `CurrentTopBreak`,
by `blockSize` for oversized requests and by `CHUNKSIZE` otherwise.  `none`
models the `sbrk` failure path (`errno = ENOMEM; return NULL;`), which
leaves the recorded state unchanged. -/
def acquireChunk (s : AllocState) (blockSize : Nat) : Option AllocState :=
  if s.currentTopBreak = 0 ∨ s.currentTopBreak < s.brk + blockSize then
    if CHUNKSIZE < blockSize then
      if s.sbrkOk then
        some { s with brk := s.brk + blockSize,
                      currentTopBreak := s.brk + blockSize,
                      currentFreeSpace := (s.brk + blockSize) - blockSize }
      else none
    else
      if s.sbrkOk then
        some { s with brk := s.brk + CHUNKSIZE,
                      currentTopBreak := s.brk + CHUNKSIZE,
                      currentFreeSpace := (s.brk + CHUNKSIZE) - CHUNKSIZE }
      else none
  else some s

/-- `GetBlock(last, size)`: carve a new block at `CurrentFreeSpace` after
possibly extending the break, link it as `last->next`, and initialize its
header to `{ size, next = NULL, free = 0 }`.  Returns the mutated state and
the new header address, or `none` on `sbrk` failure. -/
def GetBlock (s : AllocState) (last : Option Nat) (size : Nat) :
    AllocState × Option Nat :=
  let blockHeaderSize := alignUp HEADERSIZE
  let blockSize := alignUp (size + blockHeaderSize)
  match acquireChunk s blockSize with
  | none => (s, none)
  | some s1 =>
    let a := s1.currentFreeSpace
    let s2 :=
      match last with
      | some l =>
        match lookupA s1.mem l with
        | some lh => { s1 with mem := storeA s1.mem l { lh with next := some a } }
        | none => s1
      | none => s1
    ({ s2 with mem := storeA s2.mem a ⟨size, false, none⟩ }, some a)

/-- `FindFreeBlock(&last, size)`: first-fit scan along the `next` chain.
`fuel` bounds the traversal (the C loop is unbounded; on the acyclic lists
the allocator is meant to maintain, `fuel = mem.length` never runs out).
Returns the found block and the final value of `*last`. -/
def FindFreeBlock (m : Mem) : Nat → Option Nat → Nat → Nat → Option Nat × Nat
  | _, none, _, last => (none, last)
  | 0, some _, _, last => (none, last)
  | fuel + 1, some x, size, last =>
    match lookupA m x with
    | none => (none, last)
    | some h =>
      if h.free ∧ size ≤ h.size then (some x, last)
      else FindFreeBlock m fuel h.next size x

/-- Body of `malloc(size)` up to (but excluding) the final data-start
alignment: returns the chosen block header's address. -/
def mallocCore (s : AllocState) (size : Nat) : AllocState × Option Nat :=
  if size = 0 then (s, none)
  else
    match s.blockBase with
    | none =>
      match GetBlock s none size with
      | (s1, none) => (s1, none)
      | (s1, some a) => ({ s1 with blockBase := some a }, some a)
    | some base =>
      match FindFreeBlock s.mem s.mem.length (some base) size base with
      | (none, last) => GetBlock s (some last) size
      | (some a, _) =>
        match lookupA s.mem a with
        | some h => ({ s with mem := storeA s.mem a ⟨h.size, false, h.next⟩ }, some a)
        | none => (s, none)

/-- `malloc(size)`: the returned pointer is the data start
`(size_t)(block + 1)` aligned up to the next multiple of `BUSDIV`. -/
def malloc (s : AllocState) (size : Nat) : AllocState × Option Nat :=
  match mallocCore s size with
  | (s1, none) => (s1, none)
  | (s1, some a) => (s1, some (alignUp (a + HEADERSIZE)))

/-- `GetBlockHeader(ptr)`: step back one header width
(`headerPtr = ptr; headerPtr -= 1;`), then align the address down. -/
def GetBlockHeader (ptr : Nat) : Nat := alignDown (ptr - HEADERSIZE)

/-- `free(ptr)`: null is a no-op; otherwise mark the recovered header free.
(A pointer whose recovered header is outside the modelled header store —
undefined behaviour in the source — leaves the model state unchanged.) -/
def free (s : AllocState) (p : Option Nat) : AllocState :=
  match p with
  | none => s
  | some ptr =>
    match lookupA s.mem (GetBlockHeader ptr) with
    | some h =>
      { s with mem := storeA s.mem (GetBlockHeader ptr) ⟨h.size, true, h.next⟩ }
    | none => s

/-- The shrink step of `realloc`: carve a salvage block of `shrinkSize`
bytes via `GetBlock(blockHeader, shrinkSize)` (which already links it as
`blockHeader->next`), then run the source's two splice assignments
`shrinkHeader->next = blockHeader->next; blockHeader->next = shrinkHeader;`. -/
def reallocShrink (s : AllocState) (a shrinkSize : Nat) : AllocState :=
  match GetBlock s (some a) shrinkSize with
  | (s2, some sh) =>
    let aNext :=
      match lookupA s2.mem a with
      | some ha => ha.next
      | none => none
    let m1 :=
      match lookupA s2.mem sh with
      | some hsh => storeA s2.mem sh { hsh with next := aNext }
      | none => s2.mem
    let m2 :=
      match lookupA m1 a with
      | some ha => storeA m1 a { ha with next := some sh }
      | none => m1
    { s2 with mem := m2 }
  | (s2, none) => s2  -- the source would dereference NULL at this point

/-- `realloc(ptr, size)`.  `junk` is the value read from the local variable
`blockFreeSpace` when it is used uninitialized: the source assigns it only
when the block has a successor, yet the expansion test still reads it
whenever its first disjunct fails. -/
def realloc (s : AllocState) (p : Option Nat) (size : Nat) (junk : Nat) :
    AllocState × Option Nat :=
  match p with
  | none => malloc s size
  | some ptr =>
    if size = 0 then (free s (some ptr), none)
    else
      let a := GetBlockHeader ptr
      match lookupA s.mem a with
      | none => (s, none)
      | some hdr =>
        let blockSize := HEADERSIZE + hdr.size
        let blockEnd := a + blockSize
        let blockFreeSpace : Nat :=
          match hdr.next with
          | some nxt => nxt - blockEnd
          | none => junk
        let spaceNeeded : Int := (size : Int) - (hdr.size : Int)
        -- shrink: carve a salvage block when the freed tail exceeds a header
        let s1 :=
          if spaceNeeded < 0 ∧ (HEADERSIZE : Int) < -spaceNeeded then
            reallocShrink s a ((-spaceNeeded).toNat - HEADERSIZE)
          else s
        let curNext :=
          match lookupA s1.mem a with
          | some ha => ha.next
          | none => none
        if (curNext = none ∧ s1.currentFreeSpace < toSizeT spaceNeeded)
            ∨ toSizeT spaceNeeded ≤ blockFreeSpace then
          let m :=
            match lookupA s1.mem a with
            | some ha => storeA s1.mem a { ha with size := size }
            | none => s1.mem
          ({ s1 with mem := m }, some ptr)
        else
          let (s2, np) := malloc s1 size
          let cpyLen :=
            match lookupA s2.mem a with
            | some ha => ha.size
            | none => 0
          let s3 := { s2 with data := memcpyBytes s2.data (np.getD 0) ptr cpyLen }
          (free s3 (some ptr), np)

/-- `calloc(nmemb, size)`: multiply in `size_t` (wrapping), allocate, and
`memset` the result to zero — with no null check on the result. -/
def calloc (s : AllocState) (nmemb size : Nat) : AllocState × Option Nat :=
  let blockSize := (nmemb * size) % (2 ^ 64)
  let (s1, p) := malloc s blockSize
  ({ s1 with data := memsetBytes s1.data (p.getD 0) 0 blockSize }, p)

/-- Alignment facts the recovery arithmetic depends on: every modelled
header address, the break, and the carve cursor sit on `BUSDIV` boundaries
(established by a page-aligned initial break and `BUSDIV`-multiple
extensions). -/
def WFalign (s : AllocState) : Prop :=
  (∀ p ∈ s.mem, p.1 % BUSDIV = 0) ∧ s.brk % BUSDIV = 0 ∧
    s.currentFreeSpace % BUSDIV = 0

instance WFalign.decidable (s : AllocState) : Decidable (WFalign s) :=
  decidable_of_iff
    ((∀ p ∈ s.mem, p.1 % BUSDIV = 0) ∧ s.brk % BUSDIV = 0 ∧
      s.currentFreeSpace % BUSDIV = 0) Iff.rfl

/-- The header chain from the given root is a finite list in strictly
increasing address order in which no block's region (padded header plus
`size` payload bytes) overlaps the next header. -/
def wfChain (m : Mem) : Nat → Option Nat → Bool
  | _, none => true
  | 0, some _ => false
  | fuel + 1, some x =>
    match lookupA m x with
    | none => false
    | some h =>
      match h.next with
      | none => true
      | some y =>
        decide (x + alignUp HEADERSIZE + h.size ≤ y) && wfChain m fuel (some y)

/-- The whole-list invariant of the spec, rooted at `BlockBase`. -/
def wfState (s : AllocState) : Bool := wfChain s.mem s.mem.length s.blockBase

/-- `scanPath m size fuel cur a`: the `next` chain starting at `cur`
reaches `a`, and every header strictly before `a` on it fails the
first-fit test `free ∧ size ≤ h.size`. -/
def scanPath (m : Mem) (size : Nat) : Nat → Option Nat → Nat → Bool
  | _, none, _ => false
  | 0, some _, _ => false
  | fuel + 1, some x, a =>
    if x = a then true
    else
      match lookupA m x with
      | none => false
      | some h =>
        !(h.free && decide (size ≤ h.size)) && scanPath m size fuel h.next a

/-- Modelled from the spec: the header the scan visited last — the final
node assigned to `*last` — defaulting to the caller's initial `last`. -/
def lastVisited (m : Mem) (size : Nat) : Nat → Option Nat → Nat → Nat
  | _, none, l => l
  | 0, some _, l => l
  | fuel + 1, some x, l =>
    match lookupA m x with
    | none => l
    | some h =>
      if h.free ∧ size ≤ h.size then l
      else lastVisited m size fuel h.next x

/-- A start state: empty heap, OS break at a page boundary. -/
def initState : AllocState :=
  { mem := [], data := [], blockBase := none, currentTopBreak := 0,
    currentFreeSpace := 0, brk := 65536, sbrkOk := true }

/-- A start state in which the extension primitive fails. -/
def oomState : AllocState :=
  { mem := [], data := [], blockBase := none, currentTopBreak := 0,
    currentFreeSpace := 0, brk := 65536, sbrkOk := false }

/-- State after `malloc(100)` from `initState`. -/
def s100 : AllocState := (malloc initState 100).1

/-- State after `malloc(100)` then `malloc(50)` from `initState`. -/
def s100_50 : AllocState := (malloc s100 50).1

/-- State after `malloc(16)` from `initState`. -/
def s16 : AllocState := (malloc initState 16).1

/-- A state with a large free block followed by an allocated one, for
exercising first-fit reuse. -/
def reuseState : AllocState :=
  { mem := [(65536, ⟨100, true, some 131072⟩), (131072, ⟨50, false, none⟩)],
    data := [], blockBase := some 65536, currentTopBreak := 196608,
    currentFreeSpace := 131072, brk := 196608, sbrkOk := true }

/-! ## Helper lemmas -/

theorem lookupA_mem {α : Type} {m : List (Nat × α)} {a : Nat} {v : α}
    (h : lookupA m a = some v) : (a, v) ∈ m := by
  induction m with
  | nil => simp [lookupA] at h
  | cons p rest ih =>
    obtain ⟨b, w⟩ := p
    by_cases hab : a = b
    · subst hab
      simp [lookupA] at h
      subst h
      exact List.mem_cons_self _ _
    · simp only [lookupA, if_neg hab] at h
      exact List.mem_cons_of_mem _ (ih h)

theorem alignUp_mod (x : Nat) : alignUp x % BUSDIV = 0 := by
  simp only [alignUp, BUSDIV]
  omega

theorem recover_eq {h : Nat} (hh : h % BUSDIV = 0) :
    GetBlockHeader (alignUp (h + HEADERSIZE)) = h := by
  simp only [GetBlockHeader, alignUp, alignDown, BUSDIV, HEADERSIZE] at *
  omega

theorem acquireChunk_align {s : AllocState} {bs : Nat} {s1 : AllocState}
    (hbrk : s.brk % BUSDIV = 0) (hcfs : s.currentFreeSpace % BUSDIV = 0)
    (h : acquireChunk s bs = some s1) :
    s1.mem = s.mem ∧ s1.currentFreeSpace % BUSDIV = 0 := by
  unfold acquireChunk at h
  split at h
  · split at h
    · split at h
      · injection h with h
        subst h
        exact ⟨rfl, by simpa using hbrk⟩
      · exact absurd h (by simp)
    · split at h
      · injection h with h
        subst h
        exact ⟨rfl, by simpa using hbrk⟩
      · exact absurd h (by simp)
  · injection h with h
    subst h
    exact ⟨rfl, hcfs⟩

theorem GetBlock_some_addr {s : AllocState} {l : Option Nat} {n : Nat}
    {s' : AllocState} {a : Nat} (h : GetBlock s l n = (s', some a)) :
    ∃ s1, acquireChunk s (alignUp (n + alignUp HEADERSIZE)) = some s1 ∧
      a = s1.currentFreeSpace := by
  simp only [GetBlock] at h
  cases hac : acquireChunk s (alignUp (n + alignUp HEADERSIZE)) with
  | none =>
    rw [hac] at h
    simp at h
  | some s1 =>
    rw [hac] at h
    simp only at h
    refine ⟨s1, rfl, ?_⟩
    have := congrArg Prod.snd h
    simpa using this.symm

theorem GetBlock_some_aligned {s : AllocState} {l : Option Nat} {n : Nat}
    {s' : AllocState} {a : Nat} (hwf : WFalign s)
    (h : GetBlock s l n = (s', some a)) : a % BUSDIV = 0 := by
  obtain ⟨s1, hac, ha⟩ := GetBlock_some_addr h
  obtain ⟨-, hcfs⟩ := acquireChunk_align hwf.2.1 hwf.2.2 hac
  rw [ha]
  exact hcfs

theorem FindFreeBlock_some {m : Mem} :
    ∀ (fuel : Nat) (cur : Option Nat) (sz l a r : Nat),
      FindFreeBlock m fuel cur sz l = (some a, r) →
      ∃ h, lookupA m a = some h ∧ h.free = true ∧ sz ≤ h.size := by
  intro fuel
  induction fuel with
  | zero =>
    intro cur sz l a r h
    cases cur <;> simp [FindFreeBlock] at h
  | succ f ih =>
    intro cur sz l a r h
    cases cur with
    | none => simp [FindFreeBlock] at h
    | some x =>
      simp only [FindFreeBlock] at h
      split at h
      · simp at h
      · rename_i hd hl
        split at h
        · rename_i hfit
          have hax : x = a := by
            have := congrArg Prod.fst h
            simpa using this
          subst hax
          exact ⟨hd, hl, by simpa using hfit.1, hfit.2⟩
        · exact ih hd.next sz x a r h

theorem FindFreeBlock_scanPath {m : Mem} :
    ∀ (fuel : Nat) (cur : Option Nat) (sz l a r : Nat),
      FindFreeBlock m fuel cur sz l = (some a, r) →
      scanPath m sz fuel cur a = true := by
  intro fuel
  induction fuel with
  | zero =>
    intro cur sz l a r h
    cases cur <;> simp [FindFreeBlock] at h
  | succ f ih =>
    intro cur sz l a r h
    cases cur with
    | none => simp [FindFreeBlock] at h
    | some x =>
      simp only [FindFreeBlock] at h
      split at h
      · simp at h
      · rename_i hd hl
        by_cases hxa : x = a
        · simp [scanPath, hxa]
        · split at h
          · rename_i hfit
            have : x = a := by
              have := congrArg Prod.fst h
              simpa using this
            exact absurd this hxa
          · rename_i hfit
            have hrec := ih hd.next sz x a r h
            simp only [scanPath, if_neg hxa, hl, Bool.and_eq_true, hrec,
              and_true, Bool.not_eq_true', Bool.and_eq_false_iff]
            by_cases hfree : hd.free = true
            · right
              simp only [decide_eq_false_iff_not]
              intro hsz
              exact hfit ⟨by simpa using hfree, hsz⟩
            · left
              simpa using hfree

theorem FindFreeBlock_last {m : Mem} :
    ∀ (fuel : Nat) (cur : Option Nat) (sz l : Nat),
      (FindFreeBlock m fuel cur sz l).2 = lastVisited m sz fuel cur l := by
  intro fuel
  induction fuel with
  | zero =>
    intro cur sz l
    cases cur <;> simp [FindFreeBlock, lastVisited]
  | succ f ih =>
    intro cur sz l
    cases cur with
    | none => simp [FindFreeBlock, lastVisited]
    | some x =>
      simp only [FindFreeBlock, lastVisited]
      split
      · rfl
      · rename_i hd hl
        split
        · rfl
        · exact ih hd.next sz x

theorem mallocCore_some_aligned {s : AllocState} {n : Nat} {s' : AllocState}
    {a : Nat} (hwf : WFalign s) (h : mallocCore s n = (s', some a)) :
    a % BUSDIV = 0 := by
  unfold mallocCore at h
  split at h
  · simp at h
  · split at h
    · split at h
      · simp at h
      · rename_i s1 a1 hg
        have haa : a1 = a := by
          have := congrArg Prod.snd h
          simpa using this
        subst haa
        exact GetBlock_some_aligned hwf hg
    · split at h
      · exact GetBlock_some_aligned hwf h
      · rename_i a1 r hf
        split at h
        · rename_i hd hl
          have haa : a1 = a := by
            have := congrArg Prod.snd h
            simpa using this
          subst haa
          exact hwf.1 _ (lookupA_mem hl)
        · simp at h

theorem mallocCore_reuse {s : AllocState} {n base a r : Nat} {h : BlockHeader}
    (hb : s.blockBase = some base) (hn : n ≠ 0)
    (hf : FindFreeBlock s.mem s.mem.length (some base) n base = (some a, r))
    (hl : lookupA s.mem a = some h) :
    mallocCore s n =
      ({ s with mem := storeA s.mem a ⟨h.size, false, h.next⟩ }, some a) := by
  unfold mallocCore
  rw [if_neg hn, hb]
  simp only [hf, hl]

theorem malloc_mod {s : AllocState} {n q : Nat}
    (h : (malloc s n).2 = some q) : q % BUSDIV = 0 := by
  unfold malloc at h
  cases hc : mallocCore s n with
  | mk s1 b =>
    rw [hc] at h
    cases b with
    | none => simp at h
    | some a =>
      simp only at h
      have : alignUp (a + HEADERSIZE) = q := by simpa using h
      rw [← this]
      exact alignUp_mod _

theorem realloc_mod {s : AllocState} {p n j q : Nat} (hp : p % BUSDIV = 0)
    (h : (realloc s (some p) n j).2 = some q) : q % BUSDIV = 0 := by
  simp only [realloc] at h
  split at h
  · simp at h
  · split at h
    · simp at h
    · split at h
      · split at h
        · have hpq : p = q := by simpa using h
          rw [← hpq]
          exact hp
        · exact malloc_mod (by simpa using h)
      · split at h
        · have hpq : p = q := by simpa using h
          rw [← hpq]
          exact hp
        · exact malloc_mod (by simpa using h)

theorem calloc_mod {s : AllocState} {a b q : Nat}
    (h : (calloc s a b).2 = some q) : q % BUSDIV = 0 := by
  simp only [calloc] at h
  exact malloc_mod h

/-! ## Claims -/

/-- C1: for every pointer `p` returned by a successful `malloc(size)` call,
`GetBlockHeader(p)` — one header width back, aligned down — yields exactly
the header of the block from which `p` was computed, and recomputing that
header's data start (address after the header, aligned up) gives back `p`.
Stated for states whose header addresses, break, and carve cursor sit on
`BUSDIV` boundaries, which the page-aligned initial break establishes. -/
theorem C1_header_recovery (s : AllocState) (n : Nat) (s' : AllocState)
    (a : Nat) (hwf : WFalign s) (h : mallocCore s n = (s', some a)) :
    malloc s n = (s', some (alignUp (a + HEADERSIZE))) ∧
    GetBlockHeader (alignUp (a + HEADERSIZE)) = a ∧
    alignUp (GetBlockHeader (alignUp (a + HEADERSIZE)) + HEADERSIZE) =
      alignUp (a + HEADERSIZE) := by
  have ha := mallocCore_some_aligned hwf h
  have hr := recover_eq ha
  refine ⟨?_, hr, by rw [hr]⟩
  unfold malloc
  rw [h]

/-- Witness for C1 at `malloc(16)` from the initial state. -/
theorem C1_header_recovery_witness :
    WFalign initState ∧
    mallocCore initState 16 = ((mallocCore initState 16).1, some 65536) ∧
    (malloc initState 16 =
        ((mallocCore initState 16).1, some (alignUp (65536 + HEADERSIZE))) ∧
      GetBlockHeader (alignUp (65536 + HEADERSIZE)) = 65536 ∧
      alignUp (GetBlockHeader (alignUp (65536 + HEADERSIZE)) + HEADERSIZE) =
        alignUp (65536 + HEADERSIZE)) :=
  ⟨by decide, by decide,
   C1_header_recovery initState 16 (mallocCore initState 16).1 65536
     (by decide) (by decide)⟩

/-- C2 (refuted — code bug): the public operations do NOT all preserve the
spec's list invariant.  After `malloc(100); malloc(50)` the chain is well
formed, but `realloc` grows the first block in place using a gap computed
with the UNPADDED header size (`HEADERSIZE + size`, i.e. 24, where the data
really starts at the padded offset 32), so resizing to 65512 makes the
first block's data region end at 65536 + 32 + 65512 = 131080 > 131072, 8
bytes into the successor's header: `address(h2) >= address(h1) +
header_padded_size + h1.size` fails and `wfState` flips to `false`. -/
theorem C2_resize_breaks_no_overlap :
    wfState s100_50 = true ∧
    (realloc s100_50 (some 65568) 65512 0).2 = some 65568 ∧
    lookupA (realloc s100_50 (some 65568) 65512 0).1.mem 65536 =
      some ⟨65512, false, some 131072⟩ ∧
    ¬(65536 + alignUp HEADERSIZE + 65512 ≤ 131072) ∧
    wfState (realloc s100_50 (some 65568) 65512 0).1 = false := by
  decide

/-- C3 (refuted — code bug): with no successor and ample Break-Manager
slack (65536 bytes ≥ `space_needed` = 16), `resize` does NOT grow in
place: its test compares the address `CurrentFreeSpace` against
`spaceNeeded` (wrong quantity and direction) and then reads the
uninitialized `blockFreeSpace` (here modelled as reading 0), so it
relocates and returns a different pointer (131104, not 65568). -/
theorem C3_no_grow_in_place :
    (malloc initState 16).2 = some 65568 ∧
    lookupA s16.mem 65536 = some ⟨16, false, none⟩ ∧
    s16.currentTopBreak - s16.currentFreeSpace = 65536 ∧
    (realloc s16 (some 65568) 32 0).2 = some 131104 ∧
    (131104 : Nat) ≠ 65568 := by
  decide

/-- C4 (refuted — code bug): shrinking `p = malloc(100)` to 10 bytes does
carve a salvage block of 100 − 10 − 24 = 66 bytes, but `GetBlock` places
it at the start of a fresh chunk (131072), not in the reclaimed tail; it
leaves the block marked non-free (`free = 0`, never set to 1); and since
`GetBlock` has already linked it as `header.next` before the splice, the
copied `header.next` makes `new_block.next` point to the salvage block
itself rather than to the header's previous successor (`none` here). -/
theorem C4_shrink_salvage_broken :
    (realloc s100 (some 65568) 10 (2 ^ 64 - 90)).2 = some 65568 ∧
    lookupA (realloc s100 (some 65568) 10 (2 ^ 64 - 90)).1.mem 131072 =
      some ⟨66, false, some 131072⟩ ∧
    lookupA (realloc s100 (some 65568) 10 (2 ^ 64 - 90)).1.mem 65536 =
      some ⟨10, false, some 131072⟩ := by
  decide

/-- C5 (refuted — code bug): carving a new block never advances
`CurrentFreeSpace`.  After `malloc(16)` from the initial state,
`CurrentFreeSpace` still equals 65536 — the carved block's own header
address, an in-use byte — not the first unused byte 65536 + 48 (the total
padded size of the block is `alignUp(16 + alignUp 24)` = 48). -/
theorem C5_currentFreeSpace_not_advanced :
    (malloc initState 16).1.currentFreeSpace = 65536 ∧
    lookupA (malloc initState 16).1.mem 65536 = some ⟨16, false, none⟩ ∧
    (malloc initState 16).1.currentTopBreak = 131072 ∧
    (malloc initState 16).1.currentFreeSpace ≠
      65536 + alignUp (16 + alignUp HEADERSIZE) := by
  decide

/-- C6: every non-null pointer returned by `malloc`, `realloc` (given an
aligned input pointer, as all allocator-produced pointers are) or `calloc`
is a multiple of the alignment constant `BUSDIV` = 16. -/
theorem C6_alignment :
    (∀ (s : AllocState) (n q : Nat),
        (malloc s n).2 = some q → q % BUSDIV = 0) ∧
    (∀ (s : AllocState) (n j q : Nat),
        (realloc s none n j).2 = some q → q % BUSDIV = 0) ∧
    (∀ (s : AllocState) (p n j q : Nat), p % BUSDIV = 0 →
        (realloc s (some p) n j).2 = some q → q % BUSDIV = 0) ∧
    (∀ (s : AllocState) (a b q : Nat),
        (calloc s a b).2 = some q → q % BUSDIV = 0) :=
  ⟨fun _ _ _ h => malloc_mod h,
   fun _ _ _ _ h => malloc_mod h,
   fun _ _ _ _ _ hp h => realloc_mod hp h,
   fun _ _ _ _ h => calloc_mod h⟩

/-- Witness for C6 on concrete calls. -/
theorem C6_alignment_witness :
    ((malloc initState 16).2 = some 65568 ∧ 65568 % BUSDIV = 0) ∧
    ((realloc s16 (some 65568) 32 0).2 = some 131104 ∧
      131104 % BUSDIV = 0) ∧
    ((realloc initState none 16 0).2 = some 65568 ∧
      (calloc initState 4 4).2 = some 65568 ∧ 65568 % BUSDIV = 0) :=
  ⟨⟨by decide, C6_alignment.1 initState 16 65568 (by decide)⟩,
   ⟨by decide, C6_alignment.2.2.1 s16 65568 32 0 131104 (by decide) (by decide)⟩,
   ⟨by decide, by decide,
    C6_alignment.2.2.2 initState 4 4 65568 (by decide)⟩⟩

/-- C7: `FindFreeBlock` is a first-fit scan: any block it returns is live,
free, and large enough, and it lies at the end of a chain from the start
node on which every earlier header fails the test (`scanPath`); the
second result is always the last-visited header (so, on failure, the node
to link a new block after); and when `malloc` reuses a found block it only
clears the `free` flag — the header keeps its original `size` (possibly
larger than the request) and `next`. -/
theorem C7_first_fit_reuse :
    (∀ (m : Mem) (fuel : Nat) (cur : Option Nat) (sz l a r : Nat),
        FindFreeBlock m fuel cur sz l = (some a, r) →
        (∃ h, lookupA m a = some h ∧ h.free = true ∧ sz ≤ h.size) ∧
          scanPath m sz fuel cur a = true) ∧
    (∀ (m : Mem) (fuel : Nat) (cur : Option Nat) (sz l : Nat),
        (FindFreeBlock m fuel cur sz l).2 = lastVisited m sz fuel cur l) ∧
    (∀ (s : AllocState) (n base a r : Nat) (h : BlockHeader),
        s.blockBase = some base → n ≠ 0 →
        FindFreeBlock s.mem s.mem.length (some base) n base = (some a, r) →
        lookupA s.mem a = some h →
        mallocCore s n =
          ({ s with mem := storeA s.mem a ⟨h.size, false, h.next⟩ }, some a)) :=
  ⟨fun m fuel cur sz l a r h =>
    ⟨FindFreeBlock_some fuel cur sz l a r h,
     FindFreeBlock_scanPath fuel cur sz l a r h⟩,
   fun m fuel cur sz l => FindFreeBlock_last fuel cur sz l,
   fun _ _ _ _ _ _ hb hn hf hl => mallocCore_reuse hb hn hf hl⟩

/-- Witness for C7: a 20-byte request reuses the 100-byte free block at
65536, keeping its recorded size 100. -/
theorem C7_first_fit_reuse_witness :
    FindFreeBlock reuseState.mem 2 (some 65536) 20 65536 =
      (some 65536, 65536) ∧
    ((∃ h, lookupA reuseState.mem 65536 = some h ∧ h.free = true ∧
        20 ≤ h.size) ∧
      scanPath reuseState.mem 20 2 (some 65536) 65536 = true) ∧
    (FindFreeBlock reuseState.mem 2 (some 65536) 20 65536).2 =
      lastVisited reuseState.mem 20 2 (some 65536) 65536 ∧
    mallocCore reuseState 20 =
      ({ reuseState with
          mem := storeA reuseState.mem 65536 ⟨100, false, some 131072⟩ },
        some 65536) :=
  ⟨by decide,
   C7_first_fit_reuse.1 reuseState.mem 2 (some 65536) 20 65536 65536 65536
     (by decide),
   C7_first_fit_reuse.2.1 reuseState.mem 2 (some 65536) 20 65536,
   C7_first_fit_reuse.2.2 reuseState 20 65536 65536 65536
     ⟨100, true, some 131072⟩ rfl (by decide) (by decide) (by decide)⟩

/-- C8 (refuted — code bug): `calloc` has no null guard.  In a state where
the extension primitive fails, `calloc(1, 1)` gets `NULL` back from
`malloc` and still calls `memset(NULL, 0, 1)`: the model records the write
through the null pointer as a byte written at address 0, where the claim
requires that no write occur. -/
theorem C8_calloc_writes_through_null :
    (calloc oomState 1 1).2 = none ∧
    oomState.data = [] ∧
    (calloc oomState 1 1).1.data = [(0, 0)] := by
  decide

/-- C9: the interface edge cases hold exactly: `realloc(NULL, k)` is
`malloc(k)`, `realloc(p, 0)` is `free(p)` returning null, and `malloc(0)`
returns null leaving the state untouched. -/
theorem C9_edge_cases :
    (∀ (s : AllocState) (k j : Nat), realloc s none k j = malloc s k) ∧
    (∀ (s : AllocState) (x j : Nat),
        realloc s (some x) 0 j = (free s (some x), none)) ∧
    (∀ s : AllocState, malloc s 0 = (s, none)) :=
  ⟨fun _ _ _ => rfl, fun _ _ _ => rfl, fun _ => rfl⟩

/-- C10: `free(p)` for non-null `p` whose recovered header is live changes
exactly that header's `free` flag to true — the `storeA` replaces the one
entry in place, keeping its `size` and `next`, and every other state field
(`data` bytes, `blockBase`, breaks) is untouched — and `free(NULL)` is the
identity. -/
theorem C10_free_frame (s : AllocState) (ptr : Nat) (h : BlockHeader)
    (hl : lookupA s.mem (GetBlockHeader ptr) = some h) :
    free s (some ptr) =
      { s with
          mem := storeA s.mem (GetBlockHeader ptr) ⟨h.size, true, h.next⟩ } ∧
    free s none = s := by
  constructor
  · simp only [free, hl]
  · rfl

/-- Witness for C10 at the valid pointer 131104 of `reuseState`. -/
theorem C10_free_frame_witness :
    lookupA reuseState.mem (GetBlockHeader 131104) =
      some ⟨50, false, none⟩ ∧
    (free reuseState (some 131104) =
        { reuseState with
            mem := storeA reuseState.mem (GetBlockHeader 131104)
              ⟨50, true, none⟩ } ∧
      free reuseState none = reuseState) :=
  ⟨by decide, C10_free_frame reuseState 131104 ⟨50, false, none⟩ (by decide)⟩

end MyMalloc
